import Mathlib

/-!
Shallow embedding of the matchmaking core of the dating-app backend
(`backend/server.js` together with the mongoose models in
`backend/modules/user.js` and `backend/modules/match.js`).

User documents carry the schema fields of `user.js`; `_id` is modelled as a
natural number (`id`).  Match documents carry `userA`, `userB` and the
`createdAt` default timestamp of `match.js`; the wall clock `Date.now` is
modelled as an explicit counter `now` in the state.  Mongoose collections are
lists of documents; `findById` is `List.find?` on the id, a `save` after
mutating a fetched document replaces the stored document with the in-memory
one.  External collaborators excluded by the specification (bcrypt hashing,
JWT issuance, file upload) are abstracted: the stored credential is opaque.
-/

abbrev UserId := Nat

/-- A user document, after `UserSchema` in `backend/modules/user.js`. -/
structure User where
  id : UserId
  firstName : String
  lastName : String
  genre : String
  email : String
  password : String
  dob : Nat
  preference : Option String
  interests : List String
  avatar : Option String
  liked : List UserId
  likedBy : List UserId
deriving Repr, DecidableEq

/-- A match document, after `MatchSchema` in `backend/modules/match.js`. -/
structure MatchRec where
  userA : UserId
  userB : UserId
  createdAt : Nat
deriving Repr, DecidableEq

/-- The persistent state: the two mongo collections plus the clock. -/
structure Store where
  users : List User
  «matches» : List MatchRec
  now : Nat
deriving Repr, DecidableEq

/-- `User.findById`. -/
def findUser (st : Store) (uid : UserId) : Option User :=
  st.users.find? (fun u => u.id == uid)

/-- `doc.save()`: store the in-memory document over the stored one with the
same id. -/
def replaceUser (st : Store) (u : User) : Store :=
  { st with users := st.users.map (fun v => if v.id == u.id then u else v) }

/-- JavaScript truthiness of an optional string field (`undefined`, `null`
and the empty string are falsy). -/
def strTruthy : Option String → Bool
  | none => false
  | some s => !(s == "")

/-! ## POST /api/like -/

/-- Result of the like handler, `server.js` lines 188 to 246.
`invalidInput` is the 400 "targetId required" reply, `selfLike` the 400
"Cannot like yourself" reply, `notFound` the 404 reply, `serverError` the
500 reply of the catch block, `liked` and `matched` the success replies. -/
inductive LikeResult where
  | invalidInput
  | selfLike
  | notFound
  | serverError
  | liked
  | matched (m : MatchRec)
deriving Repr, DecidableEq

/-- Lines 207 to 214: push the target id onto `me.liked` and save, unless it
is already a member. -/
def pushLiked (st : Store) (me : User) (tid : UserId) : Store :=
  if tid ∈ me.liked then st
  else replaceUser st { me with liked := me.liked ++ [tid] }

/-- Lines 216 to 223: push the requester id onto `target.likedBy` and save,
unless it is already a member. -/
def pushLikedBy (st : Store) (target : User) (meId : UserId) : Store :=
  if meId ∈ target.likedBy then st
  else replaceUser st { target with likedBy := target.likedBy ++ [meId] }

/-- The symmetric pair test of the `Match.findOne` query at lines 228 to 233:
either id may occupy either slot. -/
def pairsAB (m : MatchRec) (a b : UserId) : Bool :=
  (m.userA == a && m.userB == b) || (m.userA == b && m.userB == a)

/-- Lines 207 to 241: the body of the like handler after validation has
passed, operating on the fetched `me` and `target` documents. -/
def likeCore (st : Store) (me target : User) : LikeResult × Store :=
  let st1 := pushLiked st me target.id
  let st2 := pushLikedBy st1 target me.id
  if me.id ∈ target.liked then
    match st2.«matches».find? (fun m => pairsAB m me.id target.id) with
    | none =>
        let m : MatchRec := { userA := me.id, userB := target.id, createdAt := st2.now }
        (.matched m, { st2 with «matches» := st2.«matches» ++ [m], now := st2.now + 1 })
    | some _ => (.liked, st2)
  else (.liked, st2)

/-- The like handler, `server.js` lines 188 to 246.  A missing `targetId`
is rejected before the fetched requester document is touched; a requester
document that the id lookup does not produce makes the handler throw on
`me._id`, which the catch block turns into the 500 reply. -/
def recordLike (st : Store) (meId : UserId) (targetId : Option UserId) :
    LikeResult × Store :=
  match targetId with
  | none => (.invalidInput, st)
  | some tid =>
    match findUser st meId with
    | none => (.serverError, st)
    | some me =>
      if me.id == tid then (.selfLike, st)
      else
        match findUser st tid with
        | none => (.notFound, st)
        | some target => likeCore st me target

/-! ## GET /api/users (candidates) -/

/-- The projection `select(-password -liked -likedBy)` used for candidate
listing. -/
structure PublicUser where
  id : UserId
  firstName : String
  lastName : String
  genre : String
  email : String
  dob : Nat
  preference : Option String
  interests : List String
  avatar : Option String
deriving Repr, DecidableEq

def publicUser (u : User) : PublicUser :=
  { id := u.id, firstName := u.firstName, lastName := u.lastName,
    genre := u.genre, email := u.email, dob := u.dob,
    preference := u.preference, interests := u.interests, avatar := u.avatar }

/-- The optional genre clause of the candidates query: present exactly when
`me.preference && me.preference !== 'all'` at line 178. -/
def genreCond (me u : User) : Bool :=
  if strTruthy me.preference && !(me.preference == some "all") then
    me.preference == some u.genre
  else true

/-- The whole candidates query: `_id` not among the requester id and the
requester's `liked` list, conjoined with the genre clause. -/
def candPass (me u : User) : Bool :=
  !((me.id :: me.liked).contains u.id) && genreCond me u

/-- The candidates handler, `server.js` lines 168 to 185: filter, cap at 50,
project.  `none` models the handler throwing because the requester document
is absent. -/
def listCandidates (st : Store) (meId : UserId) : Option (List PublicUser) :=
  (findUser st meId).map (fun me =>
    ((st.users.filter (candPass me)).take 50).map publicUser)

/-! ## GET /api/matches -/

/-- The projection `populate(..., firstName lastName avatar)` used when
expanding a match participant. -/
structure PubProfile where
  id : UserId
  firstName : String
  lastName : String
  avatar : Option String
deriving Repr, DecidableEq

def pubProfile (u : User) : PubProfile :=
  { id := u.id, firstName := u.firstName, lastName := u.lastName,
    avatar := u.avatar }

/-- A match document with both participant slots populated; a slot whose id
resolves to no document populates to `none`. -/
structure PopulatedMatch where
  userA : UserId
  userB : UserId
  profileA : Option PubProfile
  profileB : Option PubProfile
  createdAt : Nat
deriving Repr, DecidableEq

def populateMatch (st : Store) (m : MatchRec) : PopulatedMatch :=
  { userA := m.userA, userB := m.userB,
    profileA := (findUser st m.userA).map pubProfile,
    profileB := (findUser st m.userB).map pubProfile,
    createdAt := m.createdAt }

/-- The order `sort(\x7b createdAt: -1 \x7d)`: newer matches first. -/
def newerFirst (a b : MatchRec) : Prop := b.createdAt ≤ a.createdAt

instance : DecidableRel newerFirst := fun a b => Nat.decLe _ _

instance : IsTotal MatchRec newerFirst :=
  ⟨fun a b => Nat.le_total b.createdAt a.createdAt⟩

instance : IsTrans MatchRec newerFirst :=
  ⟨fun _ _ _ hab hbc => Nat.le_trans hbc hab⟩

/-- The matches handler, `server.js` lines 249 to 256: select the matches
with the requester in either slot, sort by creation time descending, and
populate both slots. -/
def listMatches (st : Store) (meId : UserId) : List PopulatedMatch :=
  (((st.«matches».filter (fun m => m.userA == meId || m.userB == meId)).insertionSort
      newerFirst).map (populateMatch st))

/-! ## PUT /api/users/me -/

/-- A request body for the update handler: each field either absent or
carrying a replacement value.  `findByIdAndUpdate` applies whatever fields
arrive, relation lists included; mongoose runs no validators on this path. -/
structure ProfileUpdate where
  firstName : Option String := none
  lastName : Option String := none
  genre : Option String := none
  email : Option String := none
  password : Option String := none
  dob : Option Nat := none
  preference : Option (Option String) := none
  interests : Option (List String) := none
  avatar : Option (Option String) := none
  liked : Option (List UserId) := none
  likedBy : Option (List UserId) := none
deriving Repr, DecidableEq

def applyUpdate (u : User) (up : ProfileUpdate) : User :=
  { id := u.id,
    firstName := up.firstName.getD u.firstName,
    lastName := up.lastName.getD u.lastName,
    genre := up.genre.getD u.genre,
    email := up.email.getD u.email,
    password := up.password.getD u.password,
    dob := up.dob.getD u.dob,
    preference := up.preference.getD u.preference,
    interests := up.interests.getD u.interests,
    avatar := up.avatar.getD u.avatar,
    liked := up.liked.getD u.liked,
    likedBy := up.likedBy.getD u.likedBy }

/-- The response projection `select(-password)` of the update handler keeps
every field but the credential. -/
structure UserSansPassword where
  id : UserId
  firstName : String
  lastName : String
  genre : String
  email : String
  dob : Nat
  preference : Option String
  interests : List String
  avatar : Option String
  liked : List UserId
  likedBy : List UserId
deriving Repr, DecidableEq

def sansPassword (u : User) : UserSansPassword :=
  { id := u.id, firstName := u.firstName, lastName := u.lastName,
    genre := u.genre, email := u.email, dob := u.dob,
    preference := u.preference, interests := u.interests, avatar := u.avatar,
    liked := u.liked, likedBy := u.likedBy }

/-- The update handler, `server.js` lines 159 to 165:
`findByIdAndUpdate(id, updates, new true)` with the credential stripped
from the reply.  A missing requester document yields a `null` reply and no
write. -/
def updateProfile (st : Store) (meId : UserId) (up : ProfileUpdate) :
    Option UserSansPassword × Store :=
  match findUser st meId with
  | none => (none, st)
  | some me =>
    let me1 := applyUpdate me up
    (some (sansPassword me1), replaceUser st me1)

/-! ## POST /api/register and POST /api/login -/

/-- The request body of the register handler. -/
structure RegisterInput where
  firstName : String
  lastName : String
  genre : String
  email : String
  password : String
  dob : Nat
  preference : String
  avatar : Option String
deriving Repr, DecidableEq

/-- The register handler, `server.js` lines 82 to 120.  Empty strings model
missing body fields (the 400 "Missing fields" reply); mongoose `create`
validates the `genre` and `preference` enums of the schema, and a violation
throws into the catch block — both failures are `none` here.  The created
document gets a fresh id from the store and empty relation lists from the
schema array defaults; hashing of the credential is external and the stored
credential is opaque, kept as given. -/
def register (st : Store) (newId : UserId) (inp : RegisterInput) : Option Store :=
  if inp.firstName == "" || inp.lastName == "" || inp.genre == "" ||
      inp.email == "" || inp.password == "" || inp.preference == "" then
    none
  else if !(inp.genre == "male" || inp.genre == "female") then none
  else if !(inp.preference == "male" || inp.preference == "female" ||
      inp.preference == "all") then none
  else
    some { st with users := st.users ++ [{
      id := newId, firstName := inp.firstName, lastName := inp.lastName,
      genre := inp.genre, email := inp.email, password := inp.password,
      dob := inp.dob, preference := some inp.preference, interests := [],
      avatar := inp.avatar, liked := [], likedBy := [] }] }

/-- The login handler, `server.js` lines 123 to 151: look the user up by
email and compare the credential (bcrypt is external; comparison is modelled
on the opaque stored value). -/
def login (st : Store) (email password : String) : Option User :=
  match st.users.find? (fun u => u.email == email) with
  | none => none
  | some u => if u.password == password then some u else none

/-! ## Request boundary

Each handler is wrapped in the outcome of its request boundary.  A `dbFail`
flag stands for an unexpected persistence-layer failure (a rejected mongoose
promise) inside the handler.  Handlers whose source wraps the body in
`try/catch` turn the failure into the generic 500 JSON reply; handlers with
no such block (`PUT /api/users/me`, `GET /api/users`, `GET /api/matches`)
let the rejection escape the handler. -/

inductive HOutcome (α : Type) where
  | ok (a : α)
  | jsonError (status : Nat) (message : String)
  | escaped
deriving Repr, DecidableEq

/-- POST /api/register: has a catch block (lines 83, 116 to 119). -/
def registerHandler (dbFail : Bool) (st : Store) (newId : UserId)
    (inp : RegisterInput) : HOutcome Store :=
  if dbFail then .jsonError 500 "Server error"
  else
    match register st newId inp with
    | none => .jsonError 400 "Missing fields"
    | some st2 => .ok st2

/-- POST /api/login: has a catch block (lines 124, 148 to 150). -/
def loginHandler (dbFail : Bool) (st : Store) (email password : String) :
    HOutcome (Option User) :=
  if dbFail then .jsonError 500 "Server error"
  else .ok (login st email password)

/-- POST /api/like: has a catch block (lines 189, 242 to 245). -/
def likeHandler (dbFail : Bool) (st : Store) (meId : UserId)
    (targetId : Option UserId) : HOutcome (LikeResult × Store) :=
  if dbFail then .jsonError 500 "Server error"
  else .ok (recordLike st meId targetId)

/-- GET /api/users/all: has a catch block (lines 260, 265 to 268). -/
def listAllHandler (dbFail : Bool) (st : Store) (meId : UserId) :
    HOutcome (List PublicUser) :=
  if dbFail then .jsonError 500 "Server error"
  else .ok (((st.users.filter (fun u => !(u.id == meId))).map publicUser).take 50)

/-- PUT /api/users/me: NO catch block (lines 159 to 165). -/
def updateProfileHandler (dbFail : Bool) (st : Store) (meId : UserId)
    (up : ProfileUpdate) : HOutcome (Option UserSansPassword × Store) :=
  if dbFail then .escaped
  else .ok (updateProfile st meId up)

/-- GET /api/users: NO catch block (lines 168 to 185). -/
def listCandidatesHandler (dbFail : Bool) (st : Store) (meId : UserId) :
    HOutcome (Option (List PublicUser)) :=
  if dbFail then .escaped
  else .ok (listCandidates st meId)

/-- GET /api/matches: NO catch block (lines 249 to 256). -/
def listMatchesHandler (dbFail : Bool) (st : Store) (meId : UserId) :
    HOutcome (List PopulatedMatch) :=
  if dbFail then .escaped
  else .ok (listMatches st meId)

/-! ## The relation-set invariant -/

/-- The data-model invariant on one user document: `liked` and `likedBy`
hold no self-reference and no duplicate entries. -/
def goodUser (u : User) : Prop :=
  u.id ∉ u.liked ∧ u.id ∉ u.likedBy ∧ u.liked.Nodup ∧ u.likedBy.Nodup

instance (u : User) : Decidable (goodUser u) := by
  unfold goodUser; infer_instance

/-- The invariant over the whole store. -/
def invSt (st : Store) : Prop := ∀ u ∈ st.users, goodUser u

instance (st : Store) : Decidable (invSt st) := by
  unfold invSt; infer_instance

/-! ## Helper lemmas about the store operations -/

theorem findUser_id {st : Store} {x : UserId} {u : User}
    (h : findUser st x = some u) : u.id = x := by
  have := List.find?_some h
  simpa using this

theorem findUser_mem {st : Store} {x : UserId} {u : User}
    (h : findUser st x = some u) : u ∈ st.users :=
  List.mem_of_find?_eq_some h

theorem find_map_id_pres (f : User → User) (hf : ∀ v, (f v).id = v.id)
    (x : UserId) (l : List User) :
    (l.map f).find? (fun v => v.id == x) =
      (l.find? (fun v => v.id == x)).map f := by
  induction l with
  | nil => rfl
  | cons w l ih =>
    have hfw : ((f w).id == x) = (w.id == x) := by rw [hf w]
    simp only [List.map_cons, List.find?_cons, hfw]
    cases hwx : (w.id == x) with
    | true => simp
    | false => simpa using ih

theorem findUser_replaceUser (st : Store) (u : User) (x : UserId) :
    findUser (replaceUser st u) x =
      (findUser st x).map (fun v => if v.id == u.id then u else v) := by
  unfold findUser replaceUser
  refine find_map_id_pres _ (fun v => ?_) x st.users
  by_cases h : (v.id == u.id) = true
  · have : v.id = u.id := by simpa using h
    simp [h, this]
  · simp [h]

theorem findUser_replaceUser_self {st : Store} {u w : User}
    (h : findUser st u.id = some w) :
    findUser (replaceUser st u) u.id = some u := by
  rw [findUser_replaceUser, h]
  have : w.id = u.id := findUser_id h
  simp [this]

theorem findUser_replaceUser_other {st : Store} (u : User) {x : UserId}
    (hx : x ≠ u.id) :
    findUser (replaceUser st u) x = findUser st x := by
  rw [findUser_replaceUser]
  cases hf : findUser st x with
  | none => rfl
  | some v =>
    have hv : v.id = x := findUser_id hf
    simp [hv, hx]

theorem replaceUser_matches (st : Store) (u : User) :
    (replaceUser st u).«matches» = st.«matches» := rfl

theorem replaceUser_now (st : Store) (u : User) :
    (replaceUser st u).now = st.now := rfl

theorem pushLiked_matches (st : Store) (me : User) (tid : UserId) :
    (pushLiked st me tid).«matches» = st.«matches» := by
  unfold pushLiked; split <;> rfl

theorem pushLiked_now (st : Store) (me : User) (tid : UserId) :
    (pushLiked st me tid).now = st.now := by
  unfold pushLiked; split <;> rfl

theorem pushLikedBy_matches (st : Store) (t : User) (meId : UserId) :
    (pushLikedBy st t meId).«matches» = st.«matches» := by
  unfold pushLikedBy; split <;> rfl

theorem pushLikedBy_now (st : Store) (t : User) (meId : UserId) :
    (pushLikedBy st t meId).now = st.now := by
  unfold pushLikedBy; split <;> rfl

theorem findUser_pushLiked_me {st : Store} {me : User} (tid : UserId)
    (h : findUser st me.id = some me) :
    findUser (pushLiked st me tid) me.id =
      some (if tid ∈ me.liked then me
            else { me with liked := me.liked ++ [tid] }) := by
  unfold pushLiked
  split
  · rw [h]
  · exact findUser_replaceUser_self h

theorem findUser_pushLiked_other {st : Store} (me : User) (tid : UserId)
    {x : UserId} (hx : x ≠ me.id) :
    findUser (pushLiked st me tid) x = findUser st x := by
  unfold pushLiked
  split
  · rfl
  · exact findUser_replaceUser_other _ hx

theorem findUser_pushLikedBy_target {st : Store} {t : User} (meId : UserId)
    (h : findUser st t.id = some t) :
    findUser (pushLikedBy st t meId) t.id =
      some (if meId ∈ t.likedBy then t
            else { t with likedBy := t.likedBy ++ [meId] }) := by
  unfold pushLikedBy
  split
  · rw [h]
  · exact findUser_replaceUser_self h

theorem findUser_pushLikedBy_other {st : Store} (t : User) (meId : UserId)
    {x : UserId} (hx : x ≠ t.id) :
    findUser (pushLikedBy st t meId) x = findUser st x := by
  unfold pushLikedBy
  split
  · rfl
  · exact findUser_replaceUser_other _ hx

theorem likeCore_fst (st : Store) (me target : User) :
    (likeCore st me target).1 = .liked ∨
      ∃ m, (likeCore st me target).1 = .matched m := by
  unfold likeCore
  dsimp only
  split
  · split
    · exact Or.inr ⟨_, rfl⟩
    · exact Or.inl rfl
  · exact Or.inl rfl

theorem likeCore_users (st : Store) (me target : User) :
    (likeCore st me target).2.users =
      (pushLikedBy (pushLiked st me target.id) target me.id).users := by
  unfold likeCore
  dsimp only
  split
  · split <;> rfl
  · rfl

theorem pushLiked_noop {st : Store} {me : User} {tid : UserId}
    (h : tid ∈ me.liked) : pushLiked st me tid = st := by
  simp [pushLiked, h]

theorem pushLikedBy_noop {st : Store} {t : User} {meId : UserId}
    (h : meId ∈ t.likedBy) : pushLikedBy st t meId = st := by
  simp [pushLikedBy, h]

theorem pairsAB_swap (m : MatchRec) (a b : UserId) :
    pairsAB m a b = pairsAB m b a := by
  simp [pairsAB, Bool.or_comm]

theorem recordLike_eq_likeCore {st : Store} {a b : UserId} {uA uB : User}
    (hab : a ≠ b) (hA : findUser st a = some uA)
    (hB : findUser st b = some uB) :
    recordLike st a (some b) = likeCore st uA uB := by
  have hidA : uA.id = a := findUser_id hA
  have hbeq : (uA.id == b) = false := by simp [hidA, hab]
  simp [recordLike, hA, hB, hbeq]

theorem likeCore_matches_stable (st : Store) (me target : User) (m0 : MatchRec)
    (hm : m0 ∈ st.«matches») (hp : pairsAB m0 me.id target.id = true) :
    (likeCore st me target).2.«matches» = st.«matches» := by
  have hmm : (pushLikedBy (pushLiked st me target.id) target me.id).«matches» =
      st.«matches» := by rw [pushLikedBy_matches, pushLiked_matches]
  unfold likeCore
  dsimp only
  split
  · cases hf : (pushLikedBy (pushLiked st me target.id) target me.id).«matches».find?
        (fun m => pairsAB m me.id target.id) with
    | none =>
      exfalso
      rw [hmm] at hf
      exact (List.find?_eq_none.mp hf) m0 hm (by simp [hp])
    | some w => exact hmm
  · exact hmm

theorem likeCore_already (st : Store) (me target : User) (m0 : MatchRec)
    (h1 : target.id ∈ me.liked) (h2 : me.id ∈ target.likedBy)
    (hmut : me.id ∈ target.liked)
    (hm : m0 ∈ st.«matches») (hp : pairsAB m0 me.id target.id = true) :
    likeCore st me target = (.liked, st) := by
  unfold likeCore
  dsimp only
  rw [pushLiked_noop h1, pushLikedBy_noop h2, if_pos hmut]
  cases hf : st.«matches».find? (fun m => pairsAB m me.id target.id) with
  | none =>
    exfalso
    exact (List.find?_eq_none.mp hf) m0 hm (by simp [hp])
  | some w => rfl

/-! ## Concrete fixtures for instantiations -/

/-- A concrete user document. -/
def mkUser (i : UserId) (g : String) (p : Option String)
    (lk lkBy : List UserId) : User :=
  { id := i, firstName := "f", lastName := "l", genre := g, email := "e",
    password := "w", dob := 0, preference := p, interests := [],
    avatar := none, liked := lk, likedBy := lkBy }

/-- Two users where user 2 has already liked user 1 and no match exists. -/
def stW1 : Store :=
  { users := [mkUser 1 "male" (some "all") [] [],
              mkUser 2 "female" (some "all") [1] []],
    «matches» := [], now := 0 }

/-- Two fully matched users with the corresponding match record. -/
def stW2 : Store :=
  { users := [mkUser 1 "male" (some "all") [2] [2],
              mkUser 2 "female" (some "all") [1] [1]],
    «matches» := [{ userA := 1, userB := 2, createdAt := 0 }], now := 1 }

/-! ## Claims -/

/-- C7: with the requester present, `RecordLike` fails with `InvalidInput`
exactly when the target id is missing, with `SelfLikeRejected` exactly when
the target id equals the requester's id, and with `NotFound` exactly when
the target id references no existing user, the checks applying in that
order of precedence. -/
theorem C7_recordLike_error_taxonomy (st : Store) (meId : UserId) (me : User)
    (tid? : Option UserId) (hme : findUser st meId = some me) :
    ((recordLike st meId tid?).1 = .invalidInput ↔ tid? = none) ∧
    ((recordLike st meId tid?).1 = .selfLike ↔
      ∃ tid, tid? = some tid ∧ me.id = tid) ∧
    ((recordLike st meId tid?).1 = .notFound ↔
      ∃ tid, tid? = some tid ∧ me.id ≠ tid ∧ findUser st tid = none) := by
  cases tid? with
  | none => simp [recordLike]
  | some tid =>
    by_cases hself : me.id = tid
    · have hbeq : (me.id == tid) = true := by simpa using hself
      simp [recordLike, hme, hbeq, hself]
    · have hbeq : (me.id == tid) = false := by simpa using hself
      cases ht : findUser st tid with
      | none => simp [recordLike, hme, hbeq, ht, hself]
      | some target =>
        rcases likeCore_fst st me target with h | ⟨m, h⟩ <;>
          simp [recordLike, hme, hbeq, ht, hself, h]

/-- Witness for C7 at a concrete store: a self-like is rejected as such. -/
theorem C7_witness :
    findUser stW1 1 = some (mkUser 1 "male" (some "all") [] []) ∧
    ((recordLike stW1 1 (some 1)).1 = .invalidInput ↔ (some 1 : Option UserId) = none) ∧
    ((recordLike stW1 1 (some 1)).1 = .selfLike ↔
      ∃ tid, (some 1 : Option UserId) = some tid ∧ (mkUser 1 "male" (some "all") [] []).id = tid) ∧
    ((recordLike stW1 1 (some 1)).1 = .notFound ↔
      ∃ tid, (some 1 : Option UserId) = some tid ∧
        (mkUser 1 "male" (some "all") [] []).id ≠ tid ∧ findUser stW1 tid = none) :=
  ⟨by decide, C7_recordLike_error_taxonomy stW1 1 _ (some 1) (by decide)⟩

/-- C10: whenever `RecordLike` returns one of its error results, the store
is exactly as before the call: all validation precedes every write. -/
theorem C10_error_leaves_state_unchanged (st : Store) (meId : UserId)
    (tid? : Option UserId)
    (h : (recordLike st meId tid?).1 = .invalidInput ∨
         (recordLike st meId tid?).1 = .selfLike ∨
         (recordLike st meId tid?).1 = .notFound) :
    (recordLike st meId tid?).2 = st := by
  cases tid? with
  | none => rfl
  | some tid =>
    cases hme : findUser st meId with
    | none => simp [recordLike, hme]
    | some me =>
      by_cases hself : (me.id == tid) = true
      · simp [recordLike, hme, hself]
      · cases ht : findUser st tid with
        | none => simp [recordLike, hme, hself, ht]
        | some target =>
          exfalso
          simp only [recordLike, hme, hself, ht, Bool.false_eq_true,
            if_false] at h
          rcases likeCore_fst st me target with hl | ⟨m, hl⟩ <;>
            rw [hl] at h <;> simp at h

/-- Witness for C10: the self-like error at a concrete store keeps it. -/
theorem C10_witness :
    ((recordLike stW1 1 (some 1)).1 = .invalidInput ∨
     (recordLike stW1 1 (some 1)).1 = .selfLike ∨
     (recordLike stW1 1 (some 1)).1 = .notFound) ∧
    (recordLike stW1 1 (some 1)).2 = stW1 :=
  ⟨by decide, C10_error_leaves_state_unchanged stW1 1 (some 1) (by decide)⟩

/-- C2: once a Match record pairs A and B (either slot order), a further
like from either side never changes the match collection; and in the full
Matched state (mutual liked/likedBy entries recorded) a further like from
either side is a complete no-op returning the plain "Liked" reply. -/
theorem C2_matched_pair_terminal (st : Store) (a b : UserId) (uA uB : User)
    (m0 : MatchRec)
    (hab : a ≠ b) (hA : findUser st a = some uA) (hB : findUser st b = some uB)
    (hm : m0 ∈ st.«matches») (hp : pairsAB m0 a b = true) :
    ((recordLike st a (some b)).2.«matches» = st.«matches» ∧
     (recordLike st b (some a)).2.«matches» = st.«matches») ∧
    (b ∈ uA.liked → a ∈ uB.liked → b ∈ uA.likedBy → a ∈ uB.likedBy →
      recordLike st a (some b) = (.liked, st) ∧
      recordLike st b (some a) = (.liked, st)) := by
  have hidA : uA.id = a := findUser_id hA
  have hidB : uB.id = b := findUser_id hB
  have h1 : recordLike st a (some b) = likeCore st uA uB :=
    recordLike_eq_likeCore hab hA hB
  have h2 : recordLike st b (some a) = likeCore st uB uA :=
    recordLike_eq_likeCore (Ne.symm hab) hB hA
  have hpAB : pairsAB m0 uA.id uB.id = true := by rw [hidA, hidB]; exact hp
  have hpBA : pairsAB m0 uB.id uA.id = true := by
    rw [hidA, hidB, pairsAB_swap]; exact hp
  refine ⟨⟨?_, ?_⟩, ?_⟩
  · rw [h1]; exact likeCore_matches_stable st uA uB m0 hm hpAB
  · rw [h2]; exact likeCore_matches_stable st uB uA m0 hm hpBA
  · intro hbA haB hbAby haBby
    constructor
    · rw [h1]
      exact likeCore_already st uA uB m0 (by rw [hidB]; exact hbA)
        (by rw [hidA]; exact haBby) (by rw [hidA]; exact haB) hm hpAB
    · rw [h2]
      exact likeCore_already st uB uA m0 (by rw [hidA]; exact haB)
        (by rw [hidB]; exact hbAby) (by rw [hidB]; exact hbA) hm hpBA

/-- Witness for C2 at the fully matched concrete store. -/
theorem C2_witness :
    ((1 : UserId) ≠ 2 ∧
     findUser stW2 1 = some (mkUser 1 "male" (some "all") [2] [2]) ∧
     findUser stW2 2 = some (mkUser 2 "female" (some "all") [1] [1]) ∧
     { userA := 1, userB := 2, createdAt := 0 } ∈ stW2.«matches» ∧
     pairsAB { userA := 1, userB := 2, createdAt := 0 } 1 2 = true) ∧
    (((recordLike stW2 1 (some 2)).2.«matches» = stW2.«matches» ∧
      (recordLike stW2 2 (some 1)).2.«matches» = stW2.«matches») ∧
     ((2 : UserId) ∈ (mkUser 1 "male" (some "all") [2] [2]).liked →
      (1 : UserId) ∈ (mkUser 2 "female" (some "all") [1] [1]).liked →
      (2 : UserId) ∈ (mkUser 1 "male" (some "all") [2] [2]).likedBy →
      (1 : UserId) ∈ (mkUser 2 "female" (some "all") [1] [1]).likedBy →
      recordLike stW2 1 (some 2) = (.liked, stW2) ∧
      recordLike stW2 2 (some 1) = (.liked, stW2))) :=
  ⟨⟨by decide, by decide, by decide, by decide, by decide⟩,
   C2_matched_pair_terminal stW2 1 2 (mkUser 1 "male" (some "all") [2] [2])
     (mkUser 2 "female" (some "all") [1] [1])
     { userA := 1, userB := 2, createdAt := 0 } (by decide) (by decide)
     (by decide) (by decide) (by decide)⟩

theorem likeCore_creates (st : Store) (me target : User)
    (hmut : me.id ∈ target.liked)
    (hfind : st.«matches».find? (fun m => pairsAB m me.id target.id) = none) :
    likeCore st me target =
      (.matched { userA := me.id, userB := target.id, createdAt := st.now },
       { users := (pushLikedBy (pushLiked st me target.id) target me.id).users,
         «matches» := st.«matches» ++
           [{ userA := me.id, userB := target.id, createdAt := st.now }],
         now := st.now + 1 }) := by
  have hmm : (pushLikedBy (pushLiked st me target.id) target me.id).«matches» =
      st.«matches» := by rw [pushLikedBy_matches, pushLiked_matches]
  have hnn : (pushLikedBy (pushLiked st me target.id) target me.id).now =
      st.now := by rw [pushLikedBy_now, pushLiked_now]
  unfold likeCore
  dsimp only
  rw [if_pos hmut, hmm, hnn, hfind]

/-- C1: when B has already liked A and no Match record pairs A and B in
either slot order, `RecordLike(A, B)` returns the match-formed reply
carrying a newly created Match record stamped with the current clock, the
record is appended to the match collection, and afterwards exactly one
Match record pairs A and B regardless of slot order. -/
theorem C1_mutual_like_creates_one_match (st : Store) (a b : UserId)
    (uA uB : User)
    (hab : a ≠ b) (hA : findUser st a = some uA) (hB : findUser st b = some uB)
    (hmut : a ∈ uB.liked)
    (hno : ∀ m ∈ st.«matches», pairsAB m a b = false) :
    ∃ m, (recordLike st a (some b)).1 = .matched m ∧
      pairsAB m a b = true ∧ m.createdAt = st.now ∧
      (recordLike st a (some b)).2.«matches» = st.«matches» ++ [m] ∧
      ((recordLike st a (some b)).2.«matches».countP
        (fun m2 => pairsAB m2 a b)) = 1 := by
  have hidA : uA.id = a := findUser_id hA
  have hidB : uB.id = b := findUser_id hB
  have h1 : recordLike st a (some b) = likeCore st uA uB :=
    recordLike_eq_likeCore hab hA hB
  have hfind : st.«matches».find? (fun m => pairsAB m uA.id uB.id) = none := by
    rw [List.find?_eq_none]
    intro m hm
    rw [hidA, hidB]
    simp [hno m hm]
  have hlc := likeCore_creates st uA uB (by rw [hidA]; exact hmut) hfind
  refine ⟨{ userA := uA.id, userB := uB.id, createdAt := st.now },
    ?_, ?_, ?_, ?_, ?_⟩
  · rw [h1, hlc]
  · simp [pairsAB, hidA, hidB]
  · rfl
  · rw [h1, hlc]
  · rw [h1, hlc]
    dsimp only
    rw [List.countP_append]
    have hz : st.«matches».countP (fun m2 => pairsAB m2 a b) = 0 := by
      rw [List.countP_eq_zero]
      intro m hm
      simp [hno m hm]
    rw [hz]
    simp [pairsAB, hidA, hidB]

/-- Witness for C1: at the concrete store where user 2 already liked user 1,
user 1 liking user 2 forms exactly one match. -/
theorem C1_witness :
    ((1 : UserId) ≠ 2 ∧
     findUser stW1 1 = some (mkUser 1 "male" (some "all") [] []) ∧
     findUser stW1 2 = some (mkUser 2 "female" (some "all") [1] []) ∧
     (1 : UserId) ∈ (mkUser 2 "female" (some "all") [1] []).liked ∧
     (∀ m ∈ stW1.«matches», pairsAB m 1 2 = false)) ∧
    (∃ m, (recordLike stW1 1 (some 2)).1 = .matched m ∧
      pairsAB m 1 2 = true ∧ m.createdAt = stW1.now ∧
      (recordLike stW1 1 (some 2)).2.«matches» = stW1.«matches» ++ [m] ∧
      ((recordLike stW1 1 (some 2)).2.«matches».countP
        (fun m2 => pairsAB m2 1 2)) = 1) :=
  ⟨⟨by decide, by decide, by decide, by decide, by decide⟩,
   C1_mutual_like_creates_one_match stW1 1 2
     (mkUser 1 "male" (some "all") [] []) (mkUser 2 "female" (some "all") [1] [])
     (by decide) (by decide) (by decide) (by decide) (by decide)⟩

/-- C5: candidate listing never returns the requester or anyone the
requester already liked, returns at most 50 users, and when the requester
has liked nobody the exclusion reduces to the requester id alone. -/
theorem C5_candidates_exclusions (st : Store) (meId : UserId) (me : User)
    (res : List PublicUser)
    (hme : findUser st meId = some me)
    (hres : listCandidates st meId = some res) :
    (∀ c ∈ res, c.id ≠ meId ∧ c.id ∉ me.liked) ∧
    res.length ≤ 50 ∧
    (me.liked = [] →
      res = ((st.users.filter
        (fun u => !(u.id == me.id) && genreCond me u)).take 50).map
          publicUser) := by
  have hid : me.id = meId := findUser_id hme
  rw [listCandidates, hme, Option.map_some', Option.some_inj] at hres
  subst hres
  refine ⟨?_, ?_, ?_⟩
  · intro c hc
    rcases List.mem_map.mp hc with ⟨u, hu, rfl⟩
    have hpass : candPass me u = true :=
      List.of_mem_filter (List.take_subset _ _ hu)
    rw [candPass, Bool.and_eq_true] at hpass
    have hnin : u.id ∉ (me.id :: me.liked) := by simpa using hpass.1
    rw [List.mem_cons] at hnin
    push_neg at hnin
    exact ⟨by simpa [publicUser, hid] using hnin.1,
           by simpa [publicUser] using hnin.2⟩
  · calc (((st.users.filter (candPass me)).take 50).map publicUser).length
        = ((st.users.filter (candPass me)).take 50).length :=
          List.length_map _ _
      _ ≤ 50 := List.length_take_le _ _
  · intro hempty
    have hcong : st.users.filter (candPass me) =
        st.users.filter (fun u => !(u.id == me.id) && genreCond me u) := by
      refine List.filter_congr ?_
      intro u hu
      simp only [candPass, hempty, List.contains_cons, List.contains_nil,
        Bool.or_false]
    rw [hcong]

def wU1 : User := mkUser 1 "male" (some "all") [3] []
def wU2 : User := mkUser 2 "female" (some "all") [] []

/-- Three users where user 1 has already liked user 3. -/
def stW5 : Store :=
  { users := [wU1, wU2, mkUser 3 "female" (some "all") [] []],
    «matches» := [], now := 0 }

/-- Witness for C5 at a concrete store: user 2 alone is listed for user 1. -/
theorem C5_witness :
    (findUser stW5 1 = some wU1 ∧
     listCandidates stW5 1 = some [publicUser wU2]) ∧
    ((∀ c ∈ [publicUser wU2], c.id ≠ 1 ∧ c.id ∉ wU1.liked) ∧
     [publicUser wU2].length ≤ 50 ∧
     (wU1.liked = [] →
       [publicUser wU2] = ((stW5.users.filter
         (fun u => !(u.id == wU1.id) && genreCond wU1 u)).take 50).map
           publicUser)) :=
  ⟨⟨by decide, by decide⟩,
   C5_candidates_exclusions stW5 1 wU1 [publicUser wU2] (by decide) (by decide)⟩

/-- Store refuting the literal "any" sentinel of C4: user 1's preference is
the string "any", user 2's is "all"; users of both genres exist. -/
def stC4 : Store :=
  { users := [mkUser 1 "male" (some "any") [] [],
              mkUser 2 "male" (some "all") [] [],
              mkUser 3 "female" (some "all") [] []],
    «matches» := [], now := 0 }

/-- Counterexample to C4 as stated: the requester whose preference is the
literal string "any" gets the genre filter applied (and receives no user of
either genre), while the requester whose preference is "all" — a value
other than "any" — has the filter skipped and receives users of any genre. -/
theorem C4_counterexample :
    (findUser stC4 1).map User.preference = some (some "any") ∧
    listCandidates stC4 1 = some [] ∧
    (findUser stC4 2).map User.preference = some (some "all") ∧
    listCandidates stC4 2 =
      some [publicUser (mkUser 1 "male" (some "any") [] []),
            publicUser (mkUser 3 "female" (some "all") [] [])] :=
  ⟨rfl, rfl, rfl, rfl⟩

/-- C4 amended: the candidate list is filtered by genre equal to the
requester's preference, and the filter is skipped exactly when the
preference is "all" or is absent or empty. -/
theorem C4_amended_genre_filter (st : Store) (meId : UserId) (me : User)
    (res : List PublicUser)
    (hme : findUser st meId = some me)
    (hres : listCandidates st meId = some res) :
    ((strTruthy me.preference = true ∧ me.preference ≠ some "all") →
      ∀ c ∈ res, me.preference = some c.genre) ∧
    ((strTruthy me.preference = false ∨ me.preference = some "all") →
      res = ((st.users.filter
        (fun u => !((me.id :: me.liked).contains u.id))).take 50).map
          publicUser) := by
  rw [listCandidates, hme, Option.map_some', Option.some_inj] at hres
  subst hres
  constructor
  · rintro ⟨htr, hall⟩ c hc
    rcases List.mem_map.mp hc with ⟨u, hu, rfl⟩
    have hpass : candPass me u = true :=
      List.of_mem_filter (List.take_subset _ _ hu)
    rw [candPass, Bool.and_eq_true] at hpass
    have hg : genreCond me u = true := hpass.2
    have hcond : (strTruthy me.preference &&
        !(me.preference == some "all")) = true := by
      simp [htr, hall]
    rw [genreCond, if_pos hcond] at hg
    have : me.preference = some u.genre := by simpa using hg
    simpa [publicUser] using this
  · intro hskip
    have hcong : st.users.filter (candPass me) =
        st.users.filter (fun u => !((me.id :: me.liked).contains u.id)) := by
      refine List.filter_congr ?_
      intro u hu
      have hcond : (strTruthy me.preference &&
          !(me.preference == some "all")) = false := by
        rcases hskip with h | h <;> simp [h]
      simp [candPass, genreCond, hcond]
    rw [hcong]

/-- Witness for the amended C4: the "all" requester of the counterexample
store gets the unfiltered (genre-free) candidate list. -/
theorem C4_amended_witness :
    (findUser stC4 2 = some (mkUser 2 "male" (some "all") [] []) ∧
     listCandidates stC4 2 =
       some [publicUser (mkUser 1 "male" (some "any") [] []),
             publicUser (mkUser 3 "female" (some "all") [] [])]) ∧
    (((strTruthy (mkUser 2 "male" (some "all") [] []).preference = true ∧
       (mkUser 2 "male" (some "all") [] []).preference ≠ some "all") →
      ∀ c ∈ [publicUser (mkUser 1 "male" (some "any") [] []),
             publicUser (mkUser 3 "female" (some "all") [] [])],
        (mkUser 2 "male" (some "all") [] []).preference = some c.genre) ∧
     ((strTruthy (mkUser 2 "male" (some "all") [] []).preference = false ∨
       (mkUser 2 "male" (some "all") [] []).preference = some "all") →
      [publicUser (mkUser 1 "male" (some "any") [] []),
       publicUser (mkUser 3 "female" (some "all") [] [])] =
        ((stC4.users.filter (fun u =>
          !(((mkUser 2 "male" (some "all") [] []).id ::
             (mkUser 2 "male" (some "all") [] []).liked).contains
            u.id))).take 50).map publicUser)) :=
  ⟨⟨by decide, by decide⟩,
   C4_amended_genre_filter stC4 2 (mkUser 2 "male" (some "all") [] [])
     [publicUser (mkUser 1 "male" (some "any") [] []),
      publicUser (mkUser 3 "female" (some "all") [] [])]
     (by decide) (by decide)⟩

def emptyStore : Store := { users := [], «matches» := [], now := 0 }

/-- Counterexample to C9 as stated: with the persistence layer failing, the
update-profile, candidate-listing and match-listing handlers have no
request-boundary catch, so the failure escapes instead of being converted
to a generic JSON error body. -/
theorem C9_counterexample :
    updateProfileHandler true stW1 1 {} = .escaped ∧
    listCandidatesHandler true stW1 1 = .escaped ∧
    listMatchesHandler true stW1 1 = .escaped ∧
    updateProfileHandler true stW1 1 {} ≠ .jsonError 500 "Server error" :=
  ⟨rfl, rfl, rfl, by decide⟩

/-- C9 amended: the register, login, like and debug list-all handlers catch
a persistence failure and convert it to the generic 500 JSON reply, whereas
the update-profile, candidate-listing and match-listing handlers have no
boundary catch and let the failure escape. -/
theorem C9_amended_boundary_catch (st : Store) (meId : UserId) :
    (∀ tid, likeHandler true st meId tid = .jsonError 500 "Server error") ∧
    (∀ nid inp, registerHandler true st nid inp =
      .jsonError 500 "Server error") ∧
    (∀ e p, loginHandler true st e p = .jsonError 500 "Server error") ∧
    listAllHandler true st meId = .jsonError 500 "Server error" ∧
    (∀ up, updateProfileHandler true st meId up = .escaped) ∧
    listCandidatesHandler true st meId = .escaped ∧
    listMatchesHandler true st meId = .escaped :=
  ⟨fun _ => rfl, fun _ _ => rfl, fun _ _ => rfl, rfl, fun _ => rfl, rfl, rfl⟩

/-! ## Invariant preservation -/

theorem invSt_replaceUser (st : Store) (u : User) (hinv : invSt st)
    (hu : goodUser u) : invSt (replaceUser st u) := by
  intro w hw
  rcases List.mem_map.mp hw with ⟨v, hv, rfl⟩
  by_cases h : (v.id == u.id) = true
  · simpa [h] using hu
  · simpa [h] using hinv v hv

theorem pushLiked_inv {st : Store} {me : User} {tid : UserId}
    (hinv : invSt st) (hg : goodUser me) (hne : me.id ≠ tid) :
    invSt (pushLiked st me tid) := by
  unfold pushLiked
  split
  · exact hinv
  · next hmem =>
    refine invSt_replaceUser st _ hinv ?_
    obtain ⟨hs1, hs2, hn1, hn2⟩ := hg
    refine ⟨?_, hs2, ?_, hn2⟩
    · simp only [List.mem_append, List.mem_singleton]
      rintro (h | h)
      · exact hs1 h
      · exact hne h
    · rw [List.nodup_append]
      refine ⟨hn1, List.nodup_singleton _, ?_⟩
      intro y hy hy2
      rw [List.mem_singleton] at hy2
      subst hy2
      exact hmem hy

theorem pushLikedBy_inv {st : Store} {t : User} {meId : UserId}
    (hinv : invSt st) (hg : goodUser t) (hne : t.id ≠ meId) :
    invSt (pushLikedBy st t meId) := by
  unfold pushLikedBy
  split
  · exact hinv
  · next hmem =>
    refine invSt_replaceUser st _ hinv ?_
    obtain ⟨hs1, hs2, hn1, hn2⟩ := hg
    refine ⟨hs1, ?_, hn1, ?_⟩
    · simp only [List.mem_append, List.mem_singleton]
      rintro (h | h)
      · exact hs2 h
      · exact hne h
    · rw [List.nodup_append]
      refine ⟨hn2, List.nodup_singleton _, ?_⟩
      intro y hy hy2
      rw [List.mem_singleton] at hy2
      subst hy2
      exact hmem hy

theorem likeCore_inv (st : Store) (me target : User)
    (hinv : invSt st) (hne : me.id ≠ target.id)
    (hgm : goodUser me) (hgt : goodUser target) :
    invSt (likeCore st me target).2 := by
  have h1 : invSt (pushLiked st me target.id) := pushLiked_inv hinv hgm hne
  have h2 : invSt (pushLikedBy (pushLiked st me target.id) target me.id) :=
    pushLikedBy_inv h1 hgt (Ne.symm hne)
  intro u hu
  rw [likeCore_users] at hu
  exact h2 u hu

def regInp : RegisterInput :=
  { firstName := "f", lastName := "l", genre := "male", email := "e",
    password := "w", dob := 0, preference := "all", avatar := none }

def selfLikeUpdate : ProfileUpdate := { liked := some [1] }

/-- Counterexample to C3 as stated: registering a single user yields a
store satisfying the invariant, but an `UpdateProfile` whose field-level
update sets `liked` to the user's own id leaves a self-reference in the
relation set. -/
theorem C3_counterexample :
    (register emptyStore 1 regInp).isSome = true ∧
    invSt ((register emptyStore 1 regInp).getD emptyStore) ∧
    ¬ invSt (updateProfile ((register emptyStore 1 regInp).getD emptyStore)
      1 selfLikeUpdate).2 :=
  ⟨by decide, by decide, by decide⟩

/-- C3 amended: registration and `RecordLike` preserve the no-self-reference
and no-duplicate invariant on `liked`/`likedBy`, and `UpdateProfile`
preserves it whenever the update does not touch the relation sets; an update
that rewrites them is unguarded and can break it. -/
theorem C3_amended_relation_invariant (st : Store) (hinv : invSt st) :
    (∀ nid inp st2, register st nid inp = some st2 → invSt st2) ∧
    (∀ x tid, invSt (recordLike st x tid).2) ∧
    (∀ x up, up.liked = none → up.likedBy = none →
      invSt (updateProfile st x up).2) := by
  refine ⟨?_, ?_, ?_⟩
  · intro nid inp st2 hreg
    unfold register at hreg
    split at hreg
    · exact absurd hreg (by simp)
    · split at hreg
      · exact absurd hreg (by simp)
      · split at hreg
        · exact absurd hreg (by simp)
        · rw [Option.some_inj] at hreg
          subst hreg
          intro u hu
          rcases List.mem_append.mp hu with h | h
          · exact hinv u h
          · rw [List.mem_singleton] at h
            subst h
            exact ⟨by simp, by simp, List.nodup_nil, List.nodup_nil⟩
  · intro x tid
    cases tid with
    | none => exact hinv
    | some t =>
      simp only [recordLike]
      cases hx : findUser st x with
      | none => exact hinv
      | some me =>
        by_cases hself : (me.id == t) = true
        · simp only [hself, if_true]
          exact hinv
        · simp only [hself, Bool.false_eq_true, if_false]
          cases ht : findUser st t with
          | none => exact hinv
          | some target =>
            have hne : me.id ≠ target.id := by
              have h2 : target.id = t := findUser_id ht
              rw [h2]
              simpa using hself
            exact likeCore_inv st me target hinv hne
              (hinv me (findUser_mem hx)) (hinv target (findUser_mem ht))
  · intro x up hl hlb
    unfold updateProfile
    cases hx : findUser st x with
    | none => exact hinv
    | some me =>
      dsimp only
      refine invSt_replaceUser st _ hinv ?_
      obtain ⟨h1, h2, h3, h4⟩ := hinv me (findUser_mem hx)
      exact ⟨by simpa [applyUpdate, hl] using h1,
             by simpa [applyUpdate, hlb] using h2,
             by simpa [applyUpdate, hl] using h3,
             by simpa [applyUpdate, hlb] using h4⟩

/-- Witness for the amended C3: the invariant survives a like at the
concrete store. -/
theorem C3_amended_witness :
    invSt stW1 ∧ invSt (recordLike stW1 1 (some 2)).2 :=
  ⟨by decide, (C3_amended_relation_invariant stW1 (by decide)).2.1 1 (some 2)⟩

/-- C8: match listing returns exactly the matches with the requester in
either slot, sorted by creation timestamp descending, each entry populated
with the looked-up public profiles of both slots (in particular the
counterpart's). -/
theorem C8_listMatches_spec (st : Store) (x : UserId) :
    (listMatches st x).Pairwise (fun p q => q.createdAt ≤ p.createdAt) ∧
    (∀ m ∈ st.«matches», (m.userA = x ∨ m.userB = x) →
      populateMatch st m ∈ listMatches st x) ∧
    (∀ pm ∈ listMatches st x,
      (pm.userA = x ∨ pm.userB = x) ∧
      pm.profileA = (findUser st pm.userA).map pubProfile ∧
      pm.profileB = (findUser st pm.userB).map pubProfile) := by
  refine ⟨?_, ?_, ?_⟩
  · have hs : ((st.«matches».filter
        (fun m => m.userA == x || m.userB == x)).insertionSort
          newerFirst).Sorted newerFirst :=
      List.sorted_insertionSort newerFirst _
    exact List.Pairwise.map _ (fun a b hab => hab) hs
  · intro m hm hx
    refine List.mem_map.mpr ⟨m, ?_, rfl⟩
    rw [List.mem_insertionSort]
    refine List.mem_filter.mpr ⟨hm, ?_⟩
    rcases hx with h | h <;> simp [h]
  · intro pm hpm
    unfold listMatches at hpm
    rcases List.mem_map.mp hpm with ⟨m, hm, rfl⟩
    rw [List.mem_insertionSort] at hm
    have hf := List.of_mem_filter hm
    refine ⟨?_, rfl, rfl⟩
    simpa using hf

/-- Two users with two matches both involving user 1. -/
def stW8 : Store :=
  { users := [mkUser 1 "male" (some "all") [2] [2],
              mkUser 2 "female" (some "all") [1] [1]],
    «matches» := [{ userA := 1, userB := 2, createdAt := 3 },
                  { userA := 2, userB := 1, createdAt := 7 }],
    now := 8 }

/-- Witness for C8 at a concrete store: a match of user 1 appears in the
listing. -/
theorem C8_witness :
    ({ userA := 1, userB := 2, createdAt := 3 } : MatchRec) ∈ stW8.«matches» ∧
    (({ userA := 1, userB := 2, createdAt := 3 } : MatchRec).userA = 1 ∨
     ({ userA := 1, userB := 2, createdAt := 3 } : MatchRec).userB = 1) ∧
    populateMatch stW8 { userA := 1, userB := 2, createdAt := 3 } ∈
      listMatches stW8 1 :=
  ⟨by decide, by decide,
   (C8_listMatches_spec stW8 1).2.1 _ (by decide) (by decide)⟩

/-! ## The document states after a like -/

/-- The requester document after the `liked` push of a like call. -/
def likedAfter (me : User) (tid : UserId) : User :=
  if tid ∈ me.liked then me else { me with liked := me.liked ++ [tid] }

/-- The target document after the `likedBy` push of a like call. -/
def likedByAfter (t : User) (meId : UserId) : User :=
  if meId ∈ t.likedBy then t else { t with likedBy := t.likedBy ++ [meId] }

theorem likedAfter_id (me : User) (tid : UserId) :
    (likedAfter me tid).id = me.id := by
  unfold likedAfter; split <;> rfl

theorem likedAfter_mem (me : User) (tid : UserId) :
    tid ∈ (likedAfter me tid).liked := by
  unfold likedAfter
  split
  · assumption
  · simp

theorem likedAfter_count (me : User) (tid : UserId)
    (h : me.liked.count tid ≤ 1) :
    (likedAfter me tid).liked.count tid = 1 := by
  unfold likedAfter
  split
  · next hmem => exact le_antisymm h (List.count_pos_iff.mpr hmem)
  · next hmem =>
    rw [List.count_append, List.count_eq_zero.mpr hmem]
    simp

theorem likedByAfter_id (t : User) (meId : UserId) :
    (likedByAfter t meId).id = t.id := by
  unfold likedByAfter; split <;> rfl

theorem likedByAfter_mem (t : User) (meId : UserId) :
    meId ∈ (likedByAfter t meId).likedBy := by
  unfold likedByAfter
  split
  · assumption
  · simp

theorem likedByAfter_count (t : User) (meId : UserId)
    (h : t.likedBy.count meId ≤ 1) :
    (likedByAfter t meId).likedBy.count meId = 1 := by
  unfold likedByAfter
  split
  · next hmem => exact le_antisymm h (List.count_pos_iff.mpr hmem)
  · next hmem =>
    rw [List.count_append, List.count_eq_zero.mpr hmem]
    simp

theorem likeCore_findUser_me (st : Store) (me target : User)
    (hne : me.id ≠ target.id) (hme : findUser st me.id = some me) :
    findUser (likeCore st me target).2 me.id =
      some (likedAfter me target.id) := by
  unfold findUser
  rw [likeCore_users]
  have h1 : findUser (pushLikedBy (pushLiked st me target.id) target me.id)
      me.id = findUser (pushLiked st me target.id) me.id :=
    findUser_pushLikedBy_other target me.id hne
  unfold findUser at h1
  rw [h1]
  have h2 := findUser_pushLiked_me target.id hme
  unfold findUser at h2
  rw [h2, likedAfter]

theorem likeCore_findUser_target (st : Store) (me target : User)
    (hne : me.id ≠ target.id) (htg : findUser st target.id = some target) :
    findUser (likeCore st me target).2 target.id =
      some (likedByAfter target me.id) := by
  unfold findUser
  rw [likeCore_users]
  have h1 : findUser (pushLiked st me target.id) target.id = some target := by
    rw [findUser_pushLiked_other me target.id (Ne.symm hne)]
    exact htg
  have h2 := findUser_pushLikedBy_target me.id h1
  unfold findUser at h2
  rw [h2, likedByAfter]

/-- C6: with requester A and target B both present, liking twice in
sequence succeeds both times (neither call returns an error reply) and
afterwards A's `liked` holds B exactly once and B's `likedBy` holds A
exactly once. -/
theorem C6_double_like_idempotent (st : Store) (a b : UserId) (uA uB : User)
    (hab : a ≠ b) (hA : findUser st a = some uA) (hB : findUser st b = some uB)
    (hcA : uA.liked.count b ≤ 1) (hcB : uB.likedBy.count a ≤ 1) :
    ((recordLike st a (some b)).1 = .liked ∨
      ∃ m, (recordLike st a (some b)).1 = .matched m) ∧
    ((recordLike (recordLike st a (some b)).2 a (some b)).1 = .liked ∨
      ∃ m, (recordLike (recordLike st a (some b)).2 a (some b)).1 =
        .matched m) ∧
    (∃ uA2 uB2,
      findUser (recordLike (recordLike st a (some b)).2 a (some b)).2 a =
        some uA2 ∧
      findUser (recordLike (recordLike st a (some b)).2 a (some b)).2 b =
        some uB2 ∧
      uA2.liked.count b = 1 ∧ uB2.likedBy.count a = 1) := by
  have hidA : uA.id = a := findUser_id hA
  have hidB : uB.id = b := findUser_id hB
  have hne : uA.id ≠ uB.id := by rw [hidA, hidB]; exact hab
  have h1 : recordLike st a (some b) = likeCore st uA uB :=
    recordLike_eq_likeCore hab hA hB
  have hfA1 : findUser (likeCore st uA uB).2 a =
      some (likedAfter uA uB.id) := by
    rw [← hidA]
    exact likeCore_findUser_me st uA uB hne (by rw [hidA]; exact hA)
  have hfB1 : findUser (likeCore st uA uB).2 b =
      some (likedByAfter uB uA.id) := by
    rw [← hidB]
    exact likeCore_findUser_target st uA uB hne (by rw [hidB]; exact hB)
  have h2 : recordLike (likeCore st uA uB).2 a (some b) =
      likeCore (likeCore st uA uB).2 (likedAfter uA uB.id)
        (likedByAfter uB uA.id) :=
    recordLike_eq_likeCore hab hfA1 hfB1
  have hpm : (likedByAfter uB uA.id).id ∈ (likedAfter uA uB.id).liked := by
    rw [likedByAfter_id]
    exact likedAfter_mem uA uB.id
  have hpb : (likedAfter uA uB.id).id ∈ (likedByAfter uB uA.id).likedBy := by
    rw [likedAfter_id]
    exact likedByAfter_mem uB uA.id
  have husers : (likeCore (likeCore st uA uB).2 (likedAfter uA uB.id)
      (likedByAfter uB uA.id)).2.users = (likeCore st uA uB).2.users := by
    rw [likeCore_users, pushLiked_noop hpm, pushLikedBy_noop hpb]
  have hfind2 : ∀ x, findUser (likeCore (likeCore st uA uB).2
      (likedAfter uA uB.id) (likedByAfter uB uA.id)).2 x =
      findUser (likeCore st uA uB).2 x := by
    intro x
    unfold findUser
    rw [husers]
  refine ⟨?_, ?_, ?_⟩
  · rw [h1]; exact likeCore_fst _ _ _
  · rw [h1, h2]; exact likeCore_fst _ _ _
  · refine ⟨likedAfter uA uB.id, likedByAfter uB uA.id, ?_, ?_, ?_, ?_⟩
    · rw [h1, h2, hfind2]; exact hfA1
    · rw [h1, h2, hfind2]; exact hfB1
    · rw [← hidB]
      exact likedAfter_count uA uB.id (by rw [hidB]; exact hcA)
    · rw [← hidA]
      exact likedByAfter_count uB uA.id (by rw [hidA]; exact hcB)

/-- Witness for C6 at the concrete store: user 1 likes user 2 twice. -/
theorem C6_witness :
    ((1 : UserId) ≠ 2 ∧
     findUser stW1 1 = some (mkUser 1 "male" (some "all") [] []) ∧
     findUser stW1 2 = some (mkUser 2 "female" (some "all") [1] []) ∧
     (mkUser 1 "male" (some "all") [] []).liked.count 2 ≤ 1 ∧
     (mkUser 2 "female" (some "all") [1] []).likedBy.count 1 ≤ 1) ∧
    (((recordLike stW1 1 (some 2)).1 = .liked ∨
       ∃ m, (recordLike stW1 1 (some 2)).1 = .matched m) ∧
     ((recordLike (recordLike stW1 1 (some 2)).2 1 (some 2)).1 = .liked ∨
       ∃ m, (recordLike (recordLike stW1 1 (some 2)).2 1 (some 2)).1 =
         .matched m) ∧
     (∃ uA2 uB2,
       findUser (recordLike (recordLike stW1 1 (some 2)).2 1 (some 2)).2 1 =
         some uA2 ∧
       findUser (recordLike (recordLike stW1 1 (some 2)).2 1 (some 2)).2 2 =
         some uB2 ∧
       uA2.liked.count 2 = 1 ∧ uB2.likedBy.count 1 = 1)) :=
  ⟨⟨by decide, by decide, by decide, by decide, by decide⟩,
   C6_double_like_idempotent stW1 1 2
     (mkUser 1 "male" (some "all") [] [])
     (mkUser 2 "female" (some "all") [1] [])
     (by decide) (by decide) (by decide) (by decide) (by decide)⟩
